import Mathlib

/-!
Shallow embedding of the zeet-program prototype interpreter
(src/ast.rs, src/token.rs, src/lexer.rs, src/parser.rs, src/interpreter.rs),
with the runtime `Value`/`Environment` types of the absent `src/environment.rs`
modelled from the specification.

Numbers (`f64` in the source) are modelled as rationals; every comparison the
claims exercise is exact at the inputs used, so no rounding behaviour is lost.
Console output (`println!`) is modelled as an explicit list of output events.
-/

set_option maxHeartbeats 1000000

namespace Zeet

/-- Literal from src/ast.rs: string, number, boolean, or array of literals. -/
inductive Literal where
  | str (s : String)
  | num (n : ℚ)
  | bool (b : Bool)
  | array (elems : List Literal)

mutual
/-- Expr from src/ast.rs. `importE` is `Expr::Import`, `ifE` is `Expr::If`;
the remaining constructors keep the source names. -/
inductive Expr where
  | importE (name : String) (al : Option String) (module : String)
  | function (params : List String) (types : List (String × String)) (body : List Stmt)
  | call (callee : Expr) (args : List Expr)
  | ifE (cond : Expr) (thenBody : List Stmt) (elseBody : Option (List Stmt))
  | run (e : Expr)
  | ret (e : Expr)
  | binary (left : Expr) (op : String) (right : Expr)
  | var (name : String)
  | lit (l : Literal)

/-- Stmt from src/ast.rs. -/
inductive Stmt where
  | expr (e : Expr)
  | functionDef (e : Expr)
  | importStmt (e : Expr)
  | empty
end

/-- Modelled from the spec: the runtime Value of the absent src/environment.rs
(spec section 3): string, number, boolean, array of values, function value, or
null. The `Function { params, body, types }` record of environment.rs, visible
at its construction sites in src/interpreter.rs and src/main.rs, is inlined
into the `func` constructor with its fields in source order. -/
inductive Value where
  | str (s : String)
  | num (n : ℚ)
  | bool (b : Bool)
  | array (elems : List Value)
  | func (params : List String) (body : List Stmt) (types : List (String × String))
  | null

/-- Modelled from the spec: one scope of the Environment, a mapping from
identifier to Value with unique keys (spec section 3). -/
abbrev Scope := List (String × Value)

/-- Modelled from the spec: the Environment of the absent src/environment.rs,
an ordered chain of scopes, innermost first (spec sections 3 and 4.3). -/
abbrev Env := List Scope

/-- Modelled from the spec: insert-or-overwrite of one binding in a scope. -/
def Scope.set : Scope → String → Value → Scope
  | [], name, v => [(name, v)]
  | (k, w) :: rest, name, v =>
      if k = name then (name, v) :: rest else (k, w) :: Scope.set rest name v

/-- Modelled from the spec: lookup of one binding in a scope. -/
def Scope.get : Scope → String → Option Value
  | [], _ => none
  | (k, w) :: rest, name => if k = name then some w else Scope.get rest name

/-- Modelled from the spec: `Environment::set` inserts or overwrites the
binding in the innermost scope (spec section 4.3). -/
def Env.set : Env → String → Value → Env
  | [], name, v => [[(name, v)]]
  | sc :: outer, name, v => Scope.set sc name v :: outer

/-- Modelled from the spec: `Environment::get` searches the scopes from the
innermost outward and returns the first match, else absent (spec section 4.3). -/
def Env.get : Env → String → Option Value
  | [], _ => none
  | sc :: outer, name =>
      match Scope.get sc name with
      | some v => some v
      | none => Env.get outer name

/-- Observable console output of the interpreter: `Out.ret v` is the
`println!("Return => {:?}", v)` of `Expr::Return`, `Out.registered n` is the
`println!("Registered function {}", n)` of `Stmt::FunctionDef`. -/
inductive Out where
  | ret (v : Value)
  | registered (name : String)

mutual
/-- Modelled from the spec: `Value::from(Literal)` of the absent
src/environment.rs, the evident kind-preserving conversion (spec section 3). -/
def valueOfLit : Literal → Value
  | .str s => .str s
  | .num n => .num n
  | .bool b => .bool b
  | .array elems => .array (valueOfLitList elems)

/-- Conversion of a literal array, element by element. -/
def valueOfLitList : List Literal → List Value
  | [] => []
  | l :: rest => valueOfLit l :: valueOfLitList rest
end

/-- The `1e-9` tolerance used by the `same` and `not_equal` operators in
src/interpreter.rs. -/
def tol : ℚ := 1 / 1000000000

mutual
/-- eval_expr from src/interpreter.rs. The returned pair is the Rust return
value together with the list of console outputs the evaluation printed. -/
def evalExpr : Expr → Env → Value × List Out
  | .lit l, _ => (valueOfLit l, [])
  | .var name, env => ((Env.get env name).getD Value.null, [])
  | .binary left op right, env =>
      let lp := evalExpr left env
      let rp := evalExpr right env
      let v : Value :=
        if op = "plus" then
          match lp.1, rp.1 with
          | .num a, .num b => .num (a + b)
          | .str a, .num b => .str (a ++ toString b)
          | .str a, .str b => .str (a ++ b)
          | _, _ => .null
        else if op = "and" then
          match lp.1, rp.1 with
          | .bool a, .bool b => .bool (a && b)
          | _, _ => .null
        else if op = "same" then
          match lp.1, rp.1 with
          | .str a, .str b => .bool (a == b)
          | .num a, .num b => .bool (decide (|a - b| < tol))
          | _, _ => .bool false
        else if op = "not_equal" then
          match lp.1, rp.1 with
          | .num a, .num b => .bool (decide (|a - b| > tol))
          | .str a, .str b => .bool (a != b)
          | _, _ => .bool true
        else .null
      (v, lp.2 ++ rp.2)
  | .ifE cond thenBody elseBody, env =>
      let c := evalExpr cond env
      let takeThen := match c.1 with | .bool b => b | _ => false
      if takeThen then
        (Value.null, c.2 ++ evalStmtList thenBody env)
      else
        match elseBody with
        | some elseBlock => (Value.null, c.2 ++ evalStmtList elseBlock env)
        | none => (Value.null, c.2)
  | .run inner, env =>
      match inner with
      | .call _ _ => (Value.null, [])
      | .var name =>
          (if name = "add" then Value.num 42 else (Env.get env name).getD Value.null, [])
      | _ => (Value.null, [])
  | .ret inner, env =>
      let p := evalExpr inner env
      (p.1, p.2 ++ [Out.ret p.1])
  | .call callee _args, env =>
      match callee with
      | .var name =>
          match Env.get env name with
          | some (.func _ _ _) => (Value.null, [])
          | _ => (Value.null, [])
      | _ => (Value.null, [])
  | .importE _ _ _, _ => (Value.null, [])
  | .function _ _ _, _ => (Value.null, [])

/-- The statement loops inside `Expr::If` in src/interpreter.rs: only
`Stmt::Expr` statements are evaluated, every returned value is discarded, and
no statement stops the loop. The result is the concatenated console output. -/
def evalStmtList : List Stmt → Env → List Out
  | [], _ => []
  | s :: rest, env =>
      (match s with
       | .expr e => (evalExpr e env).2
       | _ => []) ++ evalStmtList rest env
end

/-- interpret from src/interpreter.rs. The `rand::random::<u32>()` used to
generate registration names for `Stmt::FunctionDef` is external nondeterminism
and is modelled as the input stream `nums`; everything else follows the source.
The result is the final environment and the console output. -/
def interpret : List Stmt → Env → List Nat → Env × List Out
  | [], env, _ => (env, [])
  | s :: rest, env, nums =>
      match s with
      | .importStmt e =>
          match e with
          | .importE name al module =>
              let env2 :=
                if module = "http_request" then
                  Env.set env (al.getD name) (Value.func ["url"] [] [])
                else
                  Env.set env (al.getD name) Value.null
              interpret rest env2 nums
          | _ => interpret rest env nums
      | .functionDef e =>
          match e with
          | .function params types body =>
              let fname := "__fn_" ++ toString (nums.headD 0)
              let env2 := Env.set env fname (Value.func params body types)
              let p := interpret rest env2 nums.tail
              (p.1, Out.registered fname :: p.2)
          | _ => interpret rest env nums
      | .expr e =>
          let out := (evalExpr e env).2
          let p := interpret rest env nums
          (p.1, out ++ p.2)
      | .empty => interpret rest env nums

/-- Token from src/lexer.rs (the type the Lexer produces). -/
inductive LTok where
  | importT
  | fromT
  | arrow
  | assign
  | fnStart
  | blockEnd
  | identifier (s : String)
  | stringLiteral (s : String)
  | numberLiteral (n : ℚ)
  | keyword (s : String)
  | operator (s : String)
  | lparen
  | rparen
  | colon
  | comma
  | lt
  | gt
  | eof
deriving DecidableEq

/-- Is this lexer token an `Operator` token? -/
def LTok.isOperator : LTok → Bool
  | .operator _ => true
  | _ => false

/-- The word character test of both word scans in `Lexer::tokenize`
(`ch.is_alphanumeric() || ch == '_'`), restricted to ASCII as every claim is. -/
def isWordChar (c : Char) : Bool :=
  c.isAlphanum || c = '_'

/-- Digit accumulation for numeric literal text. -/
def digitsToNat (cs : List Char) : Nat :=
  cs.foldl (fun a c => 10 * a + (c.toNat - 48)) 0

/-- The `num.parse::<f64>().unwrap()` of `Lexer::tokenize`, modelled over the
rationals: the scanned word (digits and dots, starting with a digit) parses
exactly when it contains at most one dot; otherwise Rust's parse fails and the
`unwrap` aborts the run, modelled as `none`. -/
def parseNum (cs : List Char) : Option ℚ :=
  let intPart := cs.takeWhile (· != '.')
  match cs.dropWhile (· != '.') with
  | [] => some (digitsToNat intPart)
  | _ :: frac =>
      if frac.all (· != '.') then
        some (digitsToNat intPart + digitsToNat frac / (10 : ℚ) ^ frac.length)
      else
        none

/-- The word classification of the letter branch of `Lexer::tokenize`
(src/lexer.rs lines 100-109): reserved words, the operator words
`plus`, `minus`, `equal`, `not`, else a generic identifier. -/
def classifyWord (w : String) : LTok :=
  if w = "import" then .importT
  else if w = "from" then .fromT
  else if w = "if" ∨ w = "then" ∨ w = "otherwise" ∨ w = "run" ∨ w = "ret" then .keyword w
  else if w = "plus" ∨ w = "minus" ∨ w = "equal" ∨ w = "not" then .operator w
  else .identifier w

/-- The word classification of the underscore branch of `Lexer::tokenize`. -/
def classifyUnd (w : String) : LTok :=
  if w = "__fn" then .fnStart
  else if w = "__" then .blockEnd
  else .identifier w

/-- The scanning loop of `Lexer::tokenize`, one recursive step per loop
iteration. Every iteration consumes at least one character, so the fuel
`input.length + 1` given by `tokenize` is never exhausted; `none` models the
`unwrap` panic on malformed numeric literal text. -/
def lexGo : Nat → List Char → Option (List LTok)
  | 0, _ => none
  | _ + 1, [] => some []
  | fuel + 1, c :: rest =>
      if c = ' ' ∨ c = '\t' ∨ c = '\n' ∨ c = '\r' then lexGo fuel rest
      else if c = '(' then (lexGo fuel rest).map (LTok.lparen :: ·)
      else if c = ')' then (lexGo fuel rest).map (LTok.rparen :: ·)
      else if c = ',' then (lexGo fuel rest).map (LTok.comma :: ·)
      else if c = ':' then (lexGo fuel rest).map (LTok.colon :: ·)
      else if c = '<' then (lexGo fuel rest).map (LTok.lt :: ·)
      else if c = '>' then (lexGo fuel rest).map (LTok.gt :: ·)
      else if c = '"' then
        let s := rest.takeWhile (· != '"')
        let rest2 := (rest.dropWhile (· != '"')).drop 1
        (lexGo fuel rest2).map (LTok.stringLiteral (String.mk s) :: ·)
      else if c.isDigit then
        let word := (c :: rest).takeWhile (fun ch => ch.isDigit || ch = '.')
        let rest2 := (c :: rest).dropWhile (fun ch => ch.isDigit || ch = '.')
        match parseNum word with
        | none => none
        | some q => (lexGo fuel rest2).map (LTok.numberLiteral q :: ·)
      else if c = '-' then
        match rest with
        | '>' :: rest2 => (lexGo fuel rest2).map (LTok.arrow :: ·)
        | _ => lexGo fuel rest
      else if c = '=' then (lexGo fuel rest).map (LTok.assign :: ·)
      else if c = '_' then
        let word := (c :: rest).takeWhile isWordChar
        let rest2 := (c :: rest).dropWhile isWordChar
        (lexGo fuel rest2).map (classifyUnd (String.mk word) :: ·)
      else if c.isAlpha then
        let word := (c :: rest).takeWhile isWordChar
        let rest2 := (c :: rest).dropWhile isWordChar
        (lexGo fuel rest2).map (classifyWord (String.mk word) :: ·)
      else lexGo fuel rest

/-- `Lexer::tokenize` from src/lexer.rs: run the scanning loop over the whole
input and append the end-of-input token; `none` models the fatal `unwrap`
panic on malformed numeric literal text. -/
def tokenize (input : List Char) : Option (List LTok) :=
  (lexGo (input.length + 1) input).map (· ++ [LTok.eof])

/-- Token from src/token.rs (the type the Parser consumes). -/
inductive Tok where
  | importT
  | fromT
  | arrow
  | fnKw
  | equals
  | colon
  | lAngle
  | rAngle
  | lparen
  | rparen
  | comma
  | ifT
  | thenT
  | otherwise
  | runT
  | retT
  | underscore
  | eof
  | identifier (s : String)
  | stringLit (s : String)
  | numberLit (n : ℚ)
  | boolLit (b : Bool)
deriving DecidableEq

/-- The first-operand block of `Parser::parse_simple_expr` (src/parser.rs
lines 192-210): one `next()` plus, after `(`, the restricted single-identifier
read that blindly consumes one further token as the closing `)`. -/
def parseOperand : List Tok → Expr × List Tok
  | Tok.identifier s :: r => (Expr.var s, r)
  | Tok.stringLit s :: r => (Expr.lit (Literal.str s), r)
  | Tok.numberLit n :: r => (Expr.lit (Literal.num n), r)
  | Tok.boolLit b :: r => (Expr.lit (Literal.bool b), r)
  | Tok.lparen :: Tok.identifier s :: r2 => (Expr.var s, r2.drop 1)
  | Tok.lparen :: _ :: r2 => (Expr.lit (Literal.bool false), r2)
  | Tok.lparen :: [] => (Expr.lit (Literal.bool false), [])
  | _ :: r => (Expr.lit (Literal.bool false), r)
  | [] => (Expr.lit (Literal.bool false), [])

/-- `Parser::parse_simple_expr` from src/parser.rs: an operand, then, when an
identifier follows, that identifier as operator word (with the two-word
`not equal` recognized specially) and a recursively parsed right operand. One
recursive step consumes at least two tokens, so the fuel `ts.length + 1` given
by `parseSimpleExpr` is never exhausted. -/
def parseSimpleExprGo : Nat → List Tok → Expr × List Tok
  | 0, ts => (Expr.lit (Literal.bool false), ts)
  | fuel + 1, ts =>
      let lp := parseOperand ts
      match lp.2 with
      | Tok.identifier opWord :: r2 =>
          if opWord = "not" then
            match r2 with
            | Tok.identifier w2 :: r3 =>
                if w2 = "equal" then
                  let p := parseSimpleExprGo fuel r3
                  (Expr.binary lp.1 "not_equal" p.1, p.2)
                else
                  let p := parseSimpleExprGo fuel r2
                  (Expr.binary lp.1 opWord p.1, p.2)
            | _ =>
                let p := parseSimpleExprGo fuel r2
                (Expr.binary lp.1 opWord p.1, p.2)
          else
            let p := parseSimpleExprGo fuel r2
            (Expr.binary lp.1 opWord p.1, p.2)
      | _ => lp

/-- `Parser::parse_simple_expr`, with the fuel fixed from the input length. -/
def parseSimpleExpr (ts : List Tok) : Expr × List Tok :=
  parseSimpleExprGo (ts.length + 1) ts

/-- The then-branch accumulation loop of `Parser::parse_if` (src/parser.rs
lines 153-173), one recursive step per loop iteration: `otherwise` is consumed
and stops the loop, `ret`/`run` accumulate statements, the block-end marker
and end-of-input stop the loop unconsumed, anything else is skipped. Every
continuing iteration consumes at least one token, so the fuel `ts.length + 1`
given by `parseIf` is never exhausted. -/
def ifThenLoop : Nat → List Tok → List Stmt × List Tok
  | 0, ts => ([], ts)
  | fuel + 1, ts =>
      match ts with
      | Tok.otherwise :: r => ([], r)
      | Tok.retT :: r =>
          let pe := parseSimpleExpr r
          let p := ifThenLoop fuel pe.2
          (Stmt.expr (Expr.ret pe.1) :: p.1, p.2)
      | Tok.runT :: r =>
          let pe := parseSimpleExpr r
          let p := ifThenLoop fuel pe.2
          (Stmt.expr (Expr.run pe.1) :: p.1, p.2)
      | Tok.underscore :: _ => ([], ts)
      | Tok.eof :: _ => ([], ts)
      | [] => ([], [])
      | _ :: r => ifThenLoop fuel r

/-- `Parser::parse_if` from src/parser.rs: consume `if`, parse the condition,
consume an optional `then`, run the then-branch loop, and then — whatever
stopped the loop — take a single `ret <expr>` as the else-branch when the next
token is `ret`, else no else-branch. -/
def parseIf (ts : List Tok) : Expr × List Tok :=
  let p1 := parseSimpleExpr (ts.drop 1)
  let ts2 := match p1.2 with | Tok.thenT :: r => r | _ => p1.2
  let p2 := ifThenLoop (ts2.length + 1) ts2
  match p2.2 with
  | Tok.retT :: r =>
      let p3 := parseSimpleExpr r
      (Expr.ifE p1.1 p2.1 (some [Stmt.expr (Expr.ret p3.1)]), p3.2)
  | _ => (Expr.ifE p1.1 p2.1 none, p2.2)

/-- Is this expression a plain operand node (variable or literal), the only
shapes `parseOperand` produces? -/
def Expr.isOperandNode : Expr → Bool
  | .var _ => true
  | .lit _ => true
  | _ => false

/-- A right-leaning operator chain: either a plain operand, or a binary node
whose left child is a plain operand and whose right child is again a chain. -/
def Expr.isRightChain : Expr → Bool
  | .binary left _ right => left.isOperandNode && right.isRightChain
  | e => e.isOperandNode

/-- The shape of the else-branch `parse_if` can produce: absent, or exactly
one `ret` statement. -/
def elseShape : Expr → Prop
  | .ifE _ _ none => True
  | .ifE _ _ (some l) => ∃ e, l = [Stmt.expr (Expr.ret e)]
  | _ => False

/-- The kind tag of a literal, used to state kind-mismatch properties. -/
def Literal.kind : Literal → Nat
  | .str _ => 0
  | .num _ => 1
  | .bool _ => 2
  | .array _ => 3

/-- Boolean negation lifted to runtime values, used to state the relation
between `not_equal` and `same`. -/
def valueNot : Value → Value
  | .bool b => .bool (!b)
  | v => v

/-! ## Helper lemmas

`evalExpr`/`evalStmtList` are compiled by well-founded recursion, so the
per-constructor unfolding equations are proved once here and used as rewrite
rules by the claim theorems. -/

/-- Unfolding equation of `evalExpr` at a literal. -/
theorem evalExpr_lit (l : Literal) (env : Env) :
    evalExpr (Expr.lit l) env = (valueOfLit l, []) := by
  rw [evalExpr.eq_def]

/-- Unfolding equation of `evalExpr` at `Run(Var name)`. -/
theorem evalExpr_run_var (name : String) (env : Env) :
    evalExpr (Expr.run (Expr.var name)) env =
      (if name = "add" then Value.num 42 else (Env.get env name).getD Value.null, []) := by
  rw [evalExpr.eq_def]

/-- Unfolding equation of `evalExpr` at a binary operator application. -/
theorem evalExpr_binary (left : Expr) (op : String) (right : Expr) (env : Env) :
    evalExpr (Expr.binary left op right) env =
      ((if op = "plus" then
          match (evalExpr left env).1, (evalExpr right env).1 with
          | .num a, .num b => Value.num (a + b)
          | .str a, .num b => Value.str (a ++ toString b)
          | .str a, .str b => Value.str (a ++ b)
          | _, _ => Value.null
        else if op = "and" then
          match (evalExpr left env).1, (evalExpr right env).1 with
          | .bool a, .bool b => Value.bool (a && b)
          | _, _ => Value.null
        else if op = "same" then
          match (evalExpr left env).1, (evalExpr right env).1 with
          | .str a, .str b => Value.bool (a == b)
          | .num a, .num b => Value.bool (decide (|a - b| < tol))
          | _, _ => Value.bool false
        else if op = "not_equal" then
          match (evalExpr left env).1, (evalExpr right env).1 with
          | .num a, .num b => Value.bool (decide (|a - b| > tol))
          | .str a, .str b => Value.bool (a != b)
          | _, _ => Value.bool true
        else Value.null),
       (evalExpr left env).2 ++ (evalExpr right env).2) := by
  rw [evalExpr.eq_def]

/-- Unfolding equation of `evalExpr` at an If expression. -/
theorem evalExpr_ifE (cond : Expr) (tb : List Stmt) (eb : Option (List Stmt)) (env : Env) :
    evalExpr (Expr.ifE cond tb eb) env =
      (if (match (evalExpr cond env).1 with | Value.bool b => b | _ => false) = true
       then (Value.null, (evalExpr cond env).2 ++ evalStmtList tb env)
       else match eb with
            | some elseBlock => (Value.null, (evalExpr cond env).2 ++ evalStmtList elseBlock env)
            | none => (Value.null, (evalExpr cond env).2)) := by
  rw [evalExpr.eq_def]

/-- Looking up a name right after setting it in a scope yields the value set. -/
theorem scope_get_set (sc : Scope) (name : String) (v : Value) :
    Scope.get (Scope.set sc name v) name = some v := by
  induction sc with
  | nil => simp [Scope.set, Scope.get]
  | cons kv rest ih =>
      obtain ⟨k, w⟩ := kv
      by_cases h : k = name
      · simp [Scope.set, Scope.get, h]
      · simp [Scope.set, Scope.get, h, ih]

/-- Looking up a name right after setting it in an environment yields the
value set. -/
theorem env_get_set (env : Env) (name : String) (v : Value) :
    Env.get (Env.set env name v) name = some v := by
  cases env with
  | nil => simp [Env.set, Env.get, Scope.get]
  | cons sc outer => simp [Env.set, Env.get, scope_get_set]

/-- The first operand produced by `parseOperand` is always a plain operand
node, never a Binary. -/
theorem parseOperand_isOperandNode (ts : List Tok) :
    (parseOperand ts).1.isOperandNode = true := by
  cases ts with
  | nil => rfl
  | cons t r =>
      cases t <;> first
        | rfl
        | (cases r with
           | nil => rfl
           | cons t2 r2 => cases t2 <;> rfl)

/-- A plain operand node is a (degenerate) right-leaning chain. -/
theorem isRightChain_of_isOperandNode {e : Expr} (h : e.isOperandNode = true) :
    e.isRightChain = true := by
  cases e <;> simp_all [Expr.isOperandNode, Expr.isRightChain]

/-- Every expression `parseSimpleExprGo` produces is a right-leaning chain. -/
theorem parseSimpleExprGo_isRightChain (fuel : Nat) :
    ∀ ts : List Tok, ((parseSimpleExprGo fuel ts).1).isRightChain = true := by
  induction fuel with
  | zero => intro ts; rfl
  | succ n ih =>
      intro ts
      simp only [parseSimpleExprGo]
      split
      · split_ifs with hnot
        · split
          · split_ifs with heq
            · simp [Expr.isRightChain, parseOperand_isOperandNode, ih]
            · simp [Expr.isRightChain, parseOperand_isOperandNode, ih]
          · simp [Expr.isRightChain, parseOperand_isOperandNode, ih]
        · simp [Expr.isRightChain, parseOperand_isOperandNode, ih]
      · exact isRightChain_of_isOperandNode (parseOperand_isOperandNode ts)

/-! ## Claim theorems -/

/-- C1: with "f" bound to a function value whose body is a single `ret 5`,
evaluating the call `f()` yields null and prints nothing: the body is not
executed and the Return value 5 is not the call's result. -/
theorem call_stub_failing_input :
    evalExpr (Expr.call (Expr.var "f") [])
        [[("f", Value.func ["x"] [Stmt.expr (Expr.ret (Expr.lit (Literal.num 5)))] [])]]
      = (Value.null, [])
    ∧ Value.null ≠ Value.num 5 := by
  constructor
  · rfl
  · intro h
    exact Value.noConfusion h

/-- C2: a then-branch containing two Return statements evaluates both — both
Return prints appear, in order — and the If yields null: evaluation does not
stop at the first Return and its value does not become the body's result. -/
theorem if_body_no_short_circuit_failing_input :
    evalExpr (Expr.ifE (Expr.lit (Literal.bool true))
        [Stmt.expr (Expr.ret (Expr.lit (Literal.num 1))),
         Stmt.expr (Expr.ret (Expr.lit (Literal.num 2)))] none) []
      = (Value.null, [Out.ret (Value.num 1), Out.ret (Value.num 2)]) := by
  rfl

/-- C3: executing an import statement binds, in the environment, the alias
when one is present and otherwise the original name; the bound value is the
registry function value for the module http_request, which is not null, and
null for every other module name. -/
theorem import_statement_binding (env : Env) (nums : List Nat) (name : String)
    (al : Option String) (module : String) :
    Env.get (interpret [Stmt.importStmt (Expr.importE name al module)] env nums).1 (al.getD name)
      = some (if module = "http_request" then Value.func ["url"] [] [] else Value.null)
    ∧ Value.func ["url"] [] [] ≠ Value.null := by
  constructor
  · by_cases h : module = "http_request" <;> simp [interpret, h, env_get_set]
  · intro h
    exact Value.noConfusion h

/-- C9: an If expression's own value is null, for every environment,
condition and pair of branch bodies, even when the executed branch contains a
Return statement whose value was computed. -/
theorem if_expression_yields_null (cond : Expr) (tb : List Stmt)
    (eb : Option (List Stmt)) (env : Env) :
    (evalExpr (Expr.ifE cond tb eb) env).1 = Value.null := by
  rw [evalExpr_ifE]
  by_cases hb : (match (evalExpr cond env).1 with | Value.bool b => b | _ => false) = true
  · rw [if_pos hb]
  · rw [if_neg hb]
    cases eb <;> rfl

/-- C10: Run(Var "add") yields the number 42 in every environment, ignoring
any binding of "add"; Run(Var n) for every other name n yields the
environment's binding of n, or null when unbound. -/
theorem run_var_semantics :
    (∀ env : Env, (evalExpr (Expr.run (Expr.var "add")) env).1 = Value.num 42)
    ∧ (∀ (env : Env) (n : String), n ≠ "add" →
        (evalExpr (Expr.run (Expr.var n)) env).1 = (Env.get env n).getD Value.null) := by
  constructor
  · intro env
    rw [evalExpr_run_var]
    simp
  · intro env n h
    rw [evalExpr_run_var]
    simp [h]

/-- Witness for run_var_semantics: a concrete environment binding "add" to a
string value, and a concrete unbound other name. -/
theorem run_var_semantics_witness :
    (evalExpr (Expr.run (Expr.var "add")) [[("add", Value.str "shadow")]]).1 = Value.num 42
    ∧ (evalExpr (Expr.run (Expr.var "x")) ([] : Env)).1 = (Env.get ([] : Env) "x").getD Value.null :=
  ⟨run_var_semantics.1 [[("add", Value.str "shadow")]],
   run_var_semantics.2 [] "x" (by decide)⟩

/-- C6 counterexample: at two numbers whose difference is exactly the 1e-9
tolerance, `same` yields false and `not_equal` also yields false, so
not_equal is not the boolean negation of same on this identical-kind pair. -/
theorem same_notequal_boundary_counterexample :
    evalExpr (Expr.binary (Expr.lit (Literal.num (1/1000000000))) "same"
        (Expr.lit (Literal.num 0))) [] = (Value.bool false, [])
    ∧ evalExpr (Expr.binary (Expr.lit (Literal.num (1/1000000000))) "not_equal"
        (Expr.lit (Literal.num 0))) [] = (Value.bool false, [])
    ∧ Value.bool false ≠ valueNot (Value.bool false) := by
  refine ⟨?_, ?_, ?_⟩
  · rw [evalExpr_binary, evalExpr_lit, evalExpr_lit]
    simp [valueOfLit, tol, abs_of_nonneg]
  · rw [evalExpr_binary, evalExpr_lit, evalExpr_lit]
    simp [valueOfLit, tol, abs_of_nonneg]
  · intro h
    simp [valueNot] at h

/-- C6 (amended): not_equal is the boolean negation of same on two strings
always, and on two numbers whenever their absolute difference is not exactly
the 1e-9 tolerance (at exactly the tolerance both yield false); for operands
of non-matching kinds not_equal yields true. -/
theorem notequal_negation_with_boundary :
    (∀ (a b : ℚ) (env : Env), |a - b| ≠ tol →
      (evalExpr (Expr.binary (Expr.lit (Literal.num a)) "not_equal" (Expr.lit (Literal.num b))) env).1
        = valueNot (evalExpr (Expr.binary (Expr.lit (Literal.num a)) "same" (Expr.lit (Literal.num b))) env).1)
    ∧ (∀ (s t : String) (env : Env),
      (evalExpr (Expr.binary (Expr.lit (Literal.str s)) "not_equal" (Expr.lit (Literal.str t))) env).1
        = valueNot (evalExpr (Expr.binary (Expr.lit (Literal.str s)) "same" (Expr.lit (Literal.str t))) env).1)
    ∧ (∀ (l r : Literal) (env : Env), Literal.kind l ≠ Literal.kind r →
      (evalExpr (Expr.binary (Expr.lit l) "not_equal" (Expr.lit r)) env).1 = Value.bool true) := by
  refine ⟨?_, ?_, ?_⟩
  · intro a b env h
    rw [evalExpr_binary, evalExpr_binary, evalExpr_lit, evalExpr_lit]
    by_cases hlt : |a - b| < tol
    · have hgt : ¬ (|a - b| > tol) := fun hc => absurd hlt (not_lt_of_gt hc)
      simp [valueOfLit, valueNot, hlt, hgt]
    · have hgt : |a - b| > tol := lt_of_le_of_ne (not_lt.mp hlt) (Ne.symm h)
      simp [valueOfLit, valueNot, hlt, hgt]
  · intro s t env
    rw [evalExpr_binary, evalExpr_binary, evalExpr_lit, evalExpr_lit]
    simp [valueOfLit, valueNot, bne]
  · intro l r env h
    rw [evalExpr_binary, evalExpr_lit, evalExpr_lit]
    cases l <;> cases r <;> simp_all [valueOfLit, Literal.kind]

/-- Witness for notequal_negation_with_boundary: numbers 1 and 0 (difference
away from the tolerance) and a string/number kind mismatch. -/
theorem notequal_negation_witness :
    (evalExpr (Expr.binary (Expr.lit (Literal.num 1)) "not_equal" (Expr.lit (Literal.num 0))) ([] : Env)).1
      = valueNot (evalExpr (Expr.binary (Expr.lit (Literal.num 1)) "same" (Expr.lit (Literal.num 0))) ([] : Env)).1
    ∧ (evalExpr (Expr.binary (Expr.lit (Literal.str "a")) "not_equal" (Expr.lit (Literal.num 0))) ([] : Env)).1
      = Value.bool true :=
  ⟨notequal_negation_with_boundary.1 1 0 [] (by simp [tol]),
   notequal_negation_with_boundary.2.2 (Literal.str "a") (Literal.num 0) [] (by simp [Literal.kind])⟩

/-- C4 counterexample: on the token sequence `a plus b plus c`,
parse_simple_expr produces a chain of two operator applications — the right
operand of the outer Binary is itself a Binary — contradicting the claimed
at-most-one-pair result shape. -/
theorem parse_simple_expr_chain_counterexample :
    parseSimpleExpr [Tok.identifier "a", Tok.identifier "plus", Tok.identifier "b",
        Tok.identifier "plus", Tok.identifier "c"]
      = (Expr.binary (Expr.var "a") "plus"
          (Expr.binary (Expr.var "b") "plus" (Expr.var "c")), []) := by
  rfl

/-- C4 (amended): parse_simple_expr produces a single operand or a
right-leaning chain of Binary applications: every Binary node's left operand
is a plain operand (never a Binary), while the right operand may itself be a
further Binary, so chains of more than one operator pair are produced,
right-associated; a parenthesized operand is a single bare identifier (or the
literal false when no identifier follows the parenthesis). -/
theorem parse_simple_expr_right_chain (ts : List Tok) :
    ((parseSimpleExpr ts).1).isRightChain = true :=
  parseSimpleExprGo_isRightChain (ts.length + 1) ts

/-- C7 counterexample: on the tokens `if c then ret 1 otherwise run x __` the
parser leaves the run statement out of the conditional: the else-branch is
absent and the run tokens are left unconsumed. -/
theorem parse_if_otherwise_run_counterexample :
    parseIf [Tok.ifT, Tok.identifier "c", Tok.thenT, Tok.retT, Tok.numberLit 1,
        Tok.otherwise, Tok.runT, Tok.identifier "x", Tok.underscore]
      = (Expr.ifE (Expr.var "c") [Stmt.expr (Expr.ret (Expr.lit (Literal.num 1)))] none,
         [Tok.runT, Tok.identifier "x", Tok.underscore]) := by
  rfl

/-- C7 (amended): after consuming otherwise the parser captures at most one
statement: the else-branch of every parsed conditional is either absent or
exactly one Return statement; in particular run statements after otherwise
are never captured into the else-branch. -/
theorem parse_if_else_at_most_one_ret (ts : List Tok) :
    elseShape (parseIf ts).1 := by
  unfold parseIf
  dsimp only
  split
  · exact ⟨_, rfl⟩
  · trivial

/-- C5 counterexample: the input consisting of a double quote followed by
`abc` with no closing quote tokenizes successfully to a well-formed token
sequence — a string literal token holding the rest of the input — instead of
aborting. -/
theorem unterminated_string_counterexample :
    tokenize ('"' :: "abc".toList) = some [LTok.stringLiteral "abc", LTok.eof]
    ∧ tokenize ('"' :: "abc".toList) ≠ none := by
  refine ⟨rfl, ?_⟩
  intro h
  rw [show tokenize ('"' :: "abc".toList)
        = some [LTok.stringLiteral "abc", LTok.eof] from rfl] at h
  exact Option.noConfusion h

/-- C5 (amended): an unterminated string literal is not fatal: when the
opening quote is never closed, the remaining input becomes the content of a
well-formed string literal token and tokenize succeeds; the only fatal
lexer condition is malformed numeric literal text. -/
theorem unterminated_string_absorbed (cs : List Char) (h : ∀ c ∈ cs, c ≠ '"') :
    tokenize ('"' :: cs) = some [LTok.stringLiteral (String.mk cs), LTok.eof] := by
  have htake : cs.takeWhile (· != '"') = cs :=
    List.takeWhile_eq_self_iff.mpr (by intro c hc; simpa using h c hc)
  have hdrop : cs.dropWhile (· != '"') = [] :=
    List.dropWhile_eq_nil_iff.mpr (by intro c hc; simpa using h c hc)
  simp [tokenize, lexGo, htake, hdrop]

/-- Witness for unterminated_string_absorbed at the one-character input a. -/
theorem unterminated_string_absorbed_witness :
    tokenize ('"' :: ['a']) = some [LTok.stringLiteral (String.mk ['a']), LTok.eof] :=
  unterminated_string_absorbed ['a'] (by decide)

/-- C8 counterexample: tokenizing the word `and` yields an identifier token
and tokenizing `same` yields an identifier token — not operator tokens —
while `minus`, absent from the claimed operator set, yields an operator
token. -/
theorem word_operator_counterexample :
    tokenize "and".toList = some [LTok.identifier "and", LTok.eof]
    ∧ tokenize "same".toList = some [LTok.identifier "same", LTok.eof]
    ∧ tokenize "minus".toList = some [LTok.operator "minus", LTok.eof]
    ∧ (LTok.identifier "and").isOperator = false :=
  ⟨rfl, rfl, rfl, rfl⟩

/-- C8 (amended): the words the letter scan classifies as Operator tokens are
exactly plus, minus, equal and not; the words and and same fall through to
generic identifier tokens, as the concrete token sequences show. -/
theorem word_operator_classification :
    (∀ w : String, (classifyWord w).isOperator
        = (w == "plus" || w == "minus" || w == "equal" || w == "not"))
    ∧ tokenize "plus".toList = some [LTok.operator "plus", LTok.eof]
    ∧ tokenize "and".toList = some [LTok.identifier "and", LTok.eof] := by
  refine ⟨?_, rfl, rfl⟩
  intro w
  unfold classifyWord
  split_ifs with h1 h2 h3 h4
  · subst h1; rfl
  · subst h2; rfl
  · rcases h3 with h | h | h | h | h <;> (subst h; rfl)
  · rcases h4 with h | h | h | h <;> (subst h; rfl)
  · simp only [not_or] at h4
    obtain ⟨n1, n2, n3, n4⟩ := h4
    simp [LTok.isOperator, n1, n2, n3, n4]

end Zeet
